import Mathlib

/-!
Verification of the frame-assembly-and-transmit component of the
`variableInputTX.c` UWB transmitter (a DW3000 "simple TX" example with
J-Link RTT input).

Byte buffers are embedded as functions `Nat → Nat` together with an explicit
declared length; every array access of the C code goes through bounds-checked
read/write operations returning `Option`, so "`some`" results witness that all
indices used are in range.  The main loop of `app_main` is embedded as a state
machine over the frame buffer that emits a trace of hardware/driver events.
-/

namespace VariableInputTX

/-- Size of the static frame `uint8_t tx_msg[12]` (`sizeof(tx_msg)`). -/
abbrev SIZEOF_TX_MSG : Nat := 12

/-- Index of the sequence-number byte (`#define BLINK_FRAME_SN_IDX 1`). -/
abbrev BLINK_FRAME_SN_IDX : Nat := 1

/-- Inter-frame delay (`#define TX_DELAY_MS 10`). -/
abbrev TX_DELAY_MS : Nat := 10

/-- Length of the frame-check sequence appended by hardware.  `FCS_LEN` comes
from the vendor header `shared_defines.h` (an external collaborator, not part
of this repository); it is 2 bytes per IEEE 802.15.4.  No claim depends on its
numeric value. -/
abbrev FCS_LEN : Nat := 2

/-- `#define FRAME_LENGTH (sizeof(tx_msg) + FCS_LEN)`. -/
abbrev FRAME_LENGTH : Nat := SIZEOF_TX_MSG + FCS_LEN

/-- Size of the local scratch buffer `char input_buffer[sizeof(tx_msg) - 1]`. -/
abbrev RTT_BUFFER_SIZE : Nat := SIZEOF_TX_MSG - 1

/-- Number of bytes requested from RTT:
`SEGGER_RTT_Read(0, input_buffer, sizeof(tx_msg) - 2)`. -/
abbrev RTT_READ_MAX : Nat := SIZEOF_TX_MSG - 2

/-- Bounds-checked read of byte `i` from a buffer of declared length `len`;
`none` models an out-of-bounds access. -/
def readB (len : Nat) (buf : Nat → Nat) (i : Nat) : Option Nat :=
  if i < len then some (buf i) else none

/-- Bounds-checked write of value `v` at index `i` into a buffer of declared
length `len`; `none` models an out-of-bounds access. -/
def writeB (len : Nat) (buf : Nat → Nat) (i v : Nat) : Option (Nat → Nat) :=
  if i < len then some (Function.update buf i v) else none

/-- Body of the copy loop of `update_tx_msg` at index `i`:
`if (i <= bytes_read + 1) tx_msg[i] = input_buffer[i-2]; else tx_msg[i] = 0;`. -/
def copyBody (input_buffer : Nat → Nat) (bytes_read : Int) (m : Nat → Nat)
    (i : Nat) : Option (Nat → Nat) :=
  if (i : Int) ≤ bytes_read + 1 then
    match readB RTT_BUFFER_SIZE input_buffer (i - 2) with
    | none => none
    | some v => writeB SIZEOF_TX_MSG m i v
  else
    writeB SIZEOF_TX_MSG m i 0

/-- The copy loop `for (int i = 2; i < sizeof(tx_msg); i++) { ... }` of
`update_tx_msg`, with `k` the number of iterations still to run: the body is
executed for the indices `i = SIZEOF_TX_MSG - k, ..., SIZEOF_TX_MSG - 1`, so
the full loop (`i` from 2 up to `SIZEOF_TX_MSG - 1`) is `k = SIZEOF_TX_MSG - 2`. -/
def copyLoop (input_buffer : Nat → Nat) (bytes_read : Int) :
    Nat → (Nat → Nat) → Option (Nat → Nat)
  | 0, m => some m
  | k + 1, m =>
    match copyBody input_buffer bytes_read m (SIZEOF_TX_MSG - (k + 1)) with
    | none => none
    | some m2 => copyLoop input_buffer bytes_read k m2

/-- Core of `update_tx_msg`, after the RTT read returned `bytes_read` bytes
into `input_buffer`: if `bytes_read > 0`, run the copy loop and then set
`tx_msg[0] = 0xc5`; otherwise leave the frame untouched. -/
def update_tx_msg_core (tx_msg : Nat → Nat) (bytes_read : Int)
    (input_buffer : Nat → Nat) : Option (Nat → Nat) :=
  if bytes_read > 0 then
    match copyLoop input_buffer bytes_read (SIZEOF_TX_MSG - 2) tx_msg with
    | none => none
    | some m => writeB SIZEOF_TX_MSG m 0 0xc5
  else
    some tx_msg

/-- Contents of the scratch buffer after `SEGGER_RTT_Read` copied the first
`min pending.length RTT_READ_MAX` pending input bytes into it; beyond the
bytes actually read the buffer keeps its arbitrary prior contents `scratch`. -/
def rttFill (scratch : Nat → Nat) (pending : List Nat) : Nat → Nat :=
  fun i => if i < min pending.length RTT_READ_MAX then pending.getD i 0 else scratch i

/-- `update_tx_msg` as called: a non-blocking RTT read of up to `RTT_READ_MAX`
bytes of the `pending` input into the uninitialized local scratch buffer,
followed by the conditional copy into the frame. -/
def update_tx_msg (tx_msg scratch : Nat → Nat) (pending : List Nat) :
    Option (Nat → Nat) :=
  update_tx_msg_core tx_msg ((min pending.length RTT_READ_MAX : Nat) : Int)
    (rttFill scratch pending)

/-- Pointwise description of the frame produced by a successful
`update_tx_msg_core` call with `bytes_read > 0`: byte 0 becomes `0xc5`, each
payload byte `j` with `2 ≤ j < 12` gets `input_buffer[j-2]` when
`j ≤ bytes_read + 1` and `0` otherwise, and every other byte is untouched. -/
def updatedFrame (tx_msg input_buffer : Nat → Nat) (bytes_read : Int) :
    Nat → Nat :=
  fun j =>
    if j = 0 then 0xc5
    else if 2 ≤ j ∧ j < SIZEOF_TX_MSG then
      (if (j : Int) ≤ bytes_read + 1 then input_buffer (j - 2) else 0)
    else tx_msg j

theorem readB_in {len : Nat} (buf : Nat → Nat) {i : Nat} (h : i < len) :
    readB len buf i = some (buf i) := if_pos h

theorem writeB_in {len : Nat} (buf : Nat → Nat) {i : Nat} (v : Nat) (h : i < len) :
    writeB len buf i v = some (Function.update buf i v) := if_pos h

theorem copyLoop_spec (input_buffer : Nat → Nat) (bytes_read : Int) :
    ∀ (k : Nat), k ≤ SIZEOF_TX_MSG - 2 → ∀ (m : Nat → Nat),
      ∃ m2, copyLoop input_buffer bytes_read k m = some m2 ∧
        ∀ j, m2 j =
          if SIZEOF_TX_MSG - k ≤ j ∧ j < SIZEOF_TX_MSG then
            (if (j : Int) ≤ bytes_read + 1 then input_buffer (j - 2) else 0)
          else m j := by
  have e12 : SIZEOF_TX_MSG = 12 := rfl
  have e11 : RTT_BUFFER_SIZE = 11 := rfl
  intro k
  induction k with
  | zero =>
    intro _ m
    refine ⟨m, rfl, ?_⟩
    intro j
    rw [if_neg (show ¬ (SIZEOF_TX_MSG - 0 ≤ j ∧ j < SIZEOF_TX_MSG) by omega)]
  | succ k ih =>
    intro hk m
    have hi : SIZEOF_TX_MSG - (k + 1) < SIZEOF_TX_MSG := by omega
    have hbody : copyBody input_buffer bytes_read m (SIZEOF_TX_MSG - (k + 1)) =
        some (Function.update m (SIZEOF_TX_MSG - (k + 1))
          (if ((SIZEOF_TX_MSG - (k + 1) : Nat) : Int) ≤ bytes_read + 1 then
            input_buffer (SIZEOF_TX_MSG - (k + 1) - 2) else 0)) := by
      unfold copyBody
      by_cases hc : ((SIZEOF_TX_MSG - (k + 1) : Nat) : Int) ≤ bytes_read + 1
      · simp only [if_pos hc]
        rw [readB_in input_buffer
          (show SIZEOF_TX_MSG - (k + 1) - 2 < RTT_BUFFER_SIZE by omega)]
        exact writeB_in m (input_buffer (SIZEOF_TX_MSG - (k + 1) - 2)) hi
      · simp only [if_neg hc]
        exact writeB_in m 0 hi
    obtain ⟨m2, hloop, hm2⟩ := ih (by omega)
      (Function.update m (SIZEOF_TX_MSG - (k + 1))
        (if ((SIZEOF_TX_MSG - (k + 1) : Nat) : Int) ≤ bytes_read + 1 then
          input_buffer (SIZEOF_TX_MSG - (k + 1) - 2) else 0))
    refine ⟨m2, ?_, ?_⟩
    · show (match copyBody input_buffer bytes_read m (SIZEOF_TX_MSG - (k + 1)) with
        | none => none
        | some m3 => copyLoop input_buffer bytes_read k m3) = some m2
      rw [hbody]
      exact hloop
    · intro j
      rw [hm2 j]
      by_cases h1 : SIZEOF_TX_MSG - k ≤ j ∧ j < SIZEOF_TX_MSG
      · rw [if_pos h1, if_pos (show SIZEOF_TX_MSG - (k + 1) ≤ j ∧ j < SIZEOF_TX_MSG by omega)]
      · rw [if_neg h1]
        by_cases hji : j = SIZEOF_TX_MSG - (k + 1)
        · subst hji
          rw [Function.update_same,
            if_pos (show SIZEOF_TX_MSG - (k + 1) ≤ SIZEOF_TX_MSG - (k + 1) ∧
              SIZEOF_TX_MSG - (k + 1) < SIZEOF_TX_MSG from ⟨le_refl _, hi⟩)]
        · rw [Function.update_noteq hji,
            if_neg (show ¬ (SIZEOF_TX_MSG - (k + 1) ≤ j ∧ j < SIZEOF_TX_MSG) by omega)]

theorem update_tx_msg_core_spec (tx_msg input_buffer : Nat → Nat) (bytes_read : Int)
    (h : 0 < bytes_read) :
    update_tx_msg_core tx_msg bytes_read input_buffer =
      some (updatedFrame tx_msg input_buffer bytes_read) := by
  obtain ⟨m2, hloop, hm2⟩ :=
    copyLoop_spec input_buffer bytes_read (SIZEOF_TX_MSG - 2) (le_refl _) tx_msg
  unfold update_tx_msg_core
  rw [if_pos h, hloop]
  show writeB SIZEOF_TX_MSG m2 0 0xc5 = _
  rw [writeB_in m2 0xc5 (show 0 < SIZEOF_TX_MSG by decide)]
  refine congrArg some (funext fun j => ?_)
  by_cases hj : j = 0
  · subst hj
    rw [Function.update_same]
    rfl
  · rw [Function.update_noteq hj, hm2 j]
    unfold updatedFrame
    rw [if_neg hj]
    norm_num

theorem update_tx_msg_core_nonpos (tx_msg input_buffer : Nat → Nat) (bytes_read : Int)
    (h : bytes_read ≤ 0) :
    update_tx_msg_core tx_msg bytes_read input_buffer = some tx_msg := by
  unfold update_tx_msg_core
  rw [if_neg (by omega)]

theorem update_tx_msg_spec (tx_msg scratch : Nat → Nat) (pending : List Nat)
    (h : pending ≠ []) :
    update_tx_msg tx_msg scratch pending =
      some (updatedFrame tx_msg (rttFill scratch pending)
        ((min pending.length RTT_READ_MAX : Nat) : Int)) := by
  unfold update_tx_msg
  refine update_tx_msg_core_spec _ _ _ ?_
  have hp : 0 < pending.length := List.length_pos.mpr h
  have e10 : RTT_READ_MAX = 10 := rfl
  omega

theorem update_tx_msg_empty (tx_msg scratch : Nat → Nat) :
    update_tx_msg tx_msg scratch [] = some tx_msg := by
  unfold update_tx_msg
  exact update_tx_msg_core_nonpos _ _ _ (by decide)

theorem update_tx_msg_total (tx_msg scratch : Nat → Nat) (pending : List Nat) :
    ∃ m, update_tx_msg tx_msg scratch pending = some m := by
  cases pending with
  | nil => exact ⟨tx_msg, update_tx_msg_empty tx_msg scratch⟩
  | cons a t => exact ⟨_, update_tx_msg_spec tx_msg scratch (a :: t) (by simp)⟩

theorem update_tx_msg_seq_eq (tx_msg scratch : Nat → Nat) (pending : List Nat)
    (m : Nat → Nat) (h : update_tx_msg tx_msg scratch pending = some m) :
    m BLINK_FRAME_SN_IDX = tx_msg BLINK_FRAME_SN_IDX := by
  cases pending with
  | nil =>
    rw [update_tx_msg_empty tx_msg scratch] at h
    cases h
    rfl
  | cons a t =>
    rw [update_tx_msg_spec tx_msg scratch (a :: t) (by simp)] at h
    cases h
    rfl

theorem update_tx_msg_tag_cases (tx_msg scratch : Nat → Nat) (pending : List Nat)
    (m : Nat → Nat) (h : update_tx_msg tx_msg scratch pending = some m) :
    m 0 = tx_msg 0 ∨ m 0 = 0xc5 := by
  cases pending with
  | nil =>
    rw [update_tx_msg_empty tx_msg scratch] at h
    cases h
    exact Or.inl rfl
  | cons a t =>
    rw [update_tx_msg_spec tx_msg scratch (a :: t) (by simp)] at h
    cases h
    exact Or.inr rfl

/-- All-zero buffer: the state of the static `tx_msg` array after C static
zero-initialization, also used as a concrete scratch buffer in witnesses. -/
def zeroBuf : Nat → Nat := fun _ => 0

/-- C1: for every input byte count from 0 up to capacity+5 (capacity =
`SIZEOF_TX_MSG - 2 = 10`), `update_tx_msg` succeeds with every frame and
scratch-buffer index it uses in range (no bounds-checked access returns
`none`), and the only frame bytes it may change are byte 0 and the payload
bytes `2..11`; every other byte — in particular every byte at or beyond the
declared frame length 12 — is unchanged. -/
theorem update_tx_msg_bounds_safe (tx_msg scratch : Nat → Nat) (pending : List Nat)
    (h : pending.length ≤ SIZEOF_TX_MSG - 2 + 5) :
    ∃ m, update_tx_msg tx_msg scratch pending = some m ∧
      ∀ j, j ≠ 0 → ¬ (2 ≤ j ∧ j < SIZEOF_TX_MSG) → m j = tx_msg j := by
  cases pending with
  | nil => exact ⟨tx_msg, update_tx_msg_empty tx_msg scratch, fun j _ _ => rfl⟩
  | cons a t =>
    refine ⟨_, update_tx_msg_spec tx_msg scratch (a :: t) (by simp), ?_⟩
    intro j hj0 hjp
    unfold updatedFrame
    rw [if_neg hj0, if_neg hjp]

theorem update_tx_msg_bounds_safe_witness :
    ([1, 2, 3] : List Nat).length ≤ SIZEOF_TX_MSG - 2 + 5 ∧
    (∃ m, update_tx_msg zeroBuf zeroBuf [1, 2, 3] = some m ∧
      ∀ j, j ≠ 0 → ¬ (2 ≤ j ∧ j < SIZEOF_TX_MSG) → m j = zeroBuf j) :=
  ⟨by decide, update_tx_msg_bounds_safe zeroBuf zeroBuf [1, 2, 3] (by decide)⟩

/-- C2: when the RTT read returns `n > 0` bytes (`n = min pending.length 10`),
the first `n` input bytes land in order at frame bytes `2 .. n+1`, every
remaining payload byte up to byte 11 is zeroed, and byte 0 becomes the ready
sentinel `0xc5`. -/
theorem update_tx_msg_copies_input (tx_msg scratch : Nat → Nat) (pending : List Nat)
    (h : 0 < pending.length) :
    ∃ m, update_tx_msg tx_msg scratch pending = some m ∧
      m 0 = 0xc5 ∧
      (∀ j, 2 ≤ j → j ≤ min pending.length RTT_READ_MAX + 1 →
        m j = pending.getD (j - 2) 0) ∧
      (∀ j, min pending.length RTT_READ_MAX + 1 < j → j < SIZEOF_TX_MSG → m j = 0) := by
  have e10 : RTT_READ_MAX = 10 := rfl
  have e12 : SIZEOF_TX_MSG = 12 := rfl
  have hne : pending ≠ [] := by
    cases pending with
    | nil => simp at h
    | cons a t => simp
  refine ⟨_, update_tx_msg_spec tx_msg scratch pending hne, ?_, ?_, ?_⟩
  · rfl
  · intro j hj2 hjn
    unfold updatedFrame
    rw [if_neg (by omega), if_pos (by omega), if_pos (by omega)]
    unfold rttFill
    rw [if_pos (by omega)]
  · intro j hjn hj12
    unfold updatedFrame
    rw [if_neg (by omega), if_pos (by omega), if_neg (by omega)]

theorem update_tx_msg_copies_input_witness :
    0 < ([65, 66, 67, 68, 69, 70, 71, 72] : List Nat).length ∧
    (∃ m, update_tx_msg zeroBuf zeroBuf [65, 66, 67, 68, 69, 70, 71, 72] = some m ∧
      m 0 = 0xc5 ∧
      (∀ j, 2 ≤ j → j ≤ min ([65, 66, 67, 68, 69, 70, 71, 72] : List Nat).length RTT_READ_MAX + 1 →
        m j = ([65, 66, 67, 68, 69, 70, 71, 72] : List Nat).getD (j - 2) 0) ∧
      (∀ j, min ([65, 66, 67, 68, 69, 70, 71, 72] : List Nat).length RTT_READ_MAX + 1 < j →
        j < SIZEOF_TX_MSG → m j = 0)) :=
  ⟨by decide, update_tx_msg_copies_input zeroBuf zeroBuf [65, 66, 67, 68, 69, 70, 71, 72] (by decide)⟩

/-- C3: when the read returns zero or fewer bytes, `update_tx_msg` leaves the
frame exactly as it was: the core returns the unchanged frame for every
`bytes_read ≤ 0`, and in particular with no pending input every one of the
frame's bytes (type tag and sequence number included) is identical after the
call. -/
theorem update_tx_msg_noop_on_empty (tx_msg scratch input_buffer : Nat → Nat)
    (bytes_read : Int) (h : bytes_read ≤ 0) :
    update_tx_msg_core tx_msg bytes_read input_buffer = some tx_msg ∧
    update_tx_msg tx_msg scratch [] = some tx_msg ∧
    (∀ m, update_tx_msg tx_msg scratch [] = some m → ∀ j, m j = tx_msg j) := by
  refine ⟨update_tx_msg_core_nonpos tx_msg input_buffer bytes_read h,
    update_tx_msg_empty tx_msg scratch, ?_⟩
  intro m hm j
  rw [update_tx_msg_empty tx_msg scratch] at hm
  cases hm
  rfl

theorem update_tx_msg_noop_on_empty_witness :
    (0 : Int) ≤ 0 ∧
    (update_tx_msg_core zeroBuf 0 zeroBuf = some zeroBuf ∧
     update_tx_msg zeroBuf zeroBuf [] = some zeroBuf ∧
     (∀ m, update_tx_msg zeroBuf zeroBuf [] = some m → ∀ j, m j = zeroBuf j)) :=
  ⟨by decide, update_tx_msg_noop_on_empty zeroBuf zeroBuf zeroBuf 0 (by decide)⟩

/-- Observable driver/hardware actions of `app_main`, in program order.  State
changes that the spec's properties order against hardware calls (the
sequence-number increment and the type-tag reset) are recorded as events too. -/
inductive Event where
  | spiFastrate : Event
  | resetDWIC : Event
  | waitIdleRC : Event
  | setLeds : Event
  | configureTxRf : Event
  | logErr : String → Event
  | logInf : String → Event
  | logHexdump : Event
  | writeTxData : Nat → (Nat → Nat) → Event
  | writeTxFctrl : Nat → Event
  | startTx : Event
  | pollTxDone : Event
  | clearTxEvent : Event
  | sleep : Nat → Event
  | incSeq : Event
  | resetTag : Event

/-- Truth of an event being the start-transmission command `dwt_starttx`. -/
def isStartTx : Event → Bool
  | Event.startTx => true
  | _ => false

/-- Truth of an event being a call into the transmit primitive
(`dwt_writetxdata` or `dwt_starttx`). -/
def isTransmitCall : Event → Bool
  | Event.writeTxData _ _ => true
  | Event.startTx => true
  | _ => false

/-- Number of `dwt_starttx` calls in a trace: the number of transmitted
frames. -/
def countStartTx (evs : List Event) : Nat :=
  (evs.filter isStartTx).length

/-- Frame passed to the first `dwt_writetxdata` call of a trace, if any. -/
def firstTxFrame : List Event → Option (Nat → Nat)
  | [] => none
  | Event.writeTxData _ f :: _ => some f
  | _ :: rest => firstTxFrame rest

/-- Trace of the transmit branch of the loop body, lines 146-172 of the C
file, given the frame `m` produced by `update_tx_msg`. -/
def transmitTrace (m : Nat → Nat) : List Event :=
  [Event.logHexdump, Event.writeTxData (FRAME_LENGTH - FCS_LEN) m,
   Event.writeTxFctrl FRAME_LENGTH, Event.startTx, Event.pollTxDone,
   Event.clearTxEvent, Event.sleep TX_DELAY_MS, Event.incSeq, Event.resetTag]

/-- One iteration of the `while (1)` loop of `app_main`: run `update_tx_msg`
(on a fresh uninitialized scratch buffer and the pending RTT input); if the
type-tag byte is nonzero, log and transmit the frame, poll for and clear the
TX-done event, sleep `TX_DELAY_MS`, increment the sequence-number byte modulo
256 and reset the type tag to 0.  Returns the frame at the next loop top and
the trace of events. -/
def run_cycle (tx_msg scratch : Nat → Nat) (pending : List Nat) :
    Option ((Nat → Nat) × List Event) :=
  match update_tx_msg tx_msg scratch pending with
  | none => none
  | some m =>
    if m 0 ≠ 0 then
      some (Function.update
              (Function.update m BLINK_FRAME_SN_IDX ((m BLINK_FRAME_SN_IDX + 1) % 256))
              0 0,
            transmitTrace m)
    else
      some (m, [])

/-- A finite prefix of the infinite loop: one `run_cycle` per element of
`env`, each element providing that iteration's scratch-buffer garbage and
pending RTT input. -/
def run_cycles (tx_msg : Nat → Nat) :
    List ((Nat → Nat) × List Nat) → Option ((Nat → Nat) × List Event)
  | [] => some (tx_msg, [])
  | (scratch, pending) :: env =>
    match run_cycle tx_msg scratch pending with
    | none => none
    | some (tx2, evs) =>
      match run_cycles tx2 env with
      | none => none
      | some (tx3, evs2) => some (tx3, evs ++ evs2)

/-- The frame at entry to the loop: the static array is zero-initialized and
`app_main` line 104 stores 0 into `tx_msg[1]`. -/
def init_tx_msg : Nat → Nat := Function.update zeroBuf 1 0

/-- Error sentinel of `dwt_initialise`; defined in the vendor driver header
`deca_device_api.h` (an external collaborator, not in this repository).  The
code only compares against it, so its numeric value is immaterial. -/
def DWT_ERROR : Int := -1

/-- Outcome of `app_main`: stuck in one of the two fatal bring-up spin loops,
or running the transmit loop. -/
inductive Boot where
  | haltedInit : Boot
  | haltedConfig : Boot
  | running : Boot

/-- Events of the unconditional part of bring-up (lines 109-119). -/
def bring_up_events : List Event :=
  [Event.spiFastrate, Event.resetDWIC, Event.sleep 2, Event.waitIdleRC]

/-- `app_main`, parameterized by the return values of `dwt_initialise` and
`dwt_configure` and by the loop environment: zero the sequence byte, run
bring-up, halt in a spin loop on a fatal bring-up failure (emitting the error
log and nothing further), otherwise apply RF tuning and run the loop.  Returns
the outcome, the full event trace, and the final frame when the loop ran. -/
def app_main (initResult configResult : Int)
    (env : List ((Nat → Nat) × List Nat)) :
    Boot × List Event × Option (Nat → Nat) :=
  if initResult = DWT_ERROR then
    (Boot.haltedInit, bring_up_events ++ [Event.logErr "INIT FAILED"], none)
  else if configResult ≠ 0 then
    (Boot.haltedConfig,
     bring_up_events ++ [Event.setLeds, Event.logErr "CONFIG FAILED"], none)
  else
    match run_cycles init_tx_msg env with
    | none =>
      (Boot.running,
       bring_up_events ++ [Event.setLeds, Event.configureTxRf, Event.logInf "Sending started"],
       none)
    | some (tx2, evs) =>
      (Boot.running,
       bring_up_events ++ [Event.setLeds, Event.configureTxRf, Event.logInf "Sending started"]
         ++ evs,
       some tx2)

theorem run_cycle_inv (tx_msg scratch : Nat → Nat) (pending : List Nat)
    (tx2 : Nat → Nat) (evs : List Event)
    (h : run_cycle tx_msg scratch pending = some (tx2, evs)) :
    ∃ m, update_tx_msg tx_msg scratch pending = some m ∧
      ((m 0 ≠ 0 ∧
        tx2 = Function.update
          (Function.update m BLINK_FRAME_SN_IDX ((m BLINK_FRAME_SN_IDX + 1) % 256)) 0 0 ∧
        evs = transmitTrace m) ∨
       (m 0 = 0 ∧ tx2 = m ∧ evs = [])) := by
  obtain ⟨m, hm⟩ := update_tx_msg_total tx_msg scratch pending
  refine ⟨m, hm, ?_⟩
  have hrc : run_cycle tx_msg scratch pending =
      if m 0 ≠ 0 then
        some (Function.update
          (Function.update m BLINK_FRAME_SN_IDX ((m BLINK_FRAME_SN_IDX + 1) % 256)) 0 0,
          transmitTrace m)
      else some (m, []) := by
    unfold run_cycle
    rw [hm]
  rw [hrc] at h
  by_cases h0 : m 0 ≠ 0
  · rw [if_pos h0, Option.some.injEq, Prod.mk.injEq] at h
    exact Or.inl ⟨h0, h.1.symm, h.2.symm⟩
  · rw [if_neg h0, Option.some.injEq, Prod.mk.injEq] at h
    exact Or.inr ⟨by omega, h.1.symm, h.2.symm⟩

theorem run_cycle_total (tx_msg scratch : Nat → Nat) (pending : List Nat) :
    ∃ r, run_cycle tx_msg scratch pending = some r := by
  obtain ⟨m, hm⟩ := update_tx_msg_total tx_msg scratch pending
  have hrc : run_cycle tx_msg scratch pending =
      if m 0 ≠ 0 then
        some (Function.update
          (Function.update m BLINK_FRAME_SN_IDX ((m BLINK_FRAME_SN_IDX + 1) % 256)) 0 0,
          transmitTrace m)
      else some (m, []) := by
    unfold run_cycle
    rw [hm]
  by_cases h0 : m 0 ≠ 0
  · exact ⟨_, hrc.trans (if_pos h0)⟩
  · exact ⟨_, hrc.trans (if_neg h0)⟩

theorem run_cycle_tag_zero (tx_msg scratch : Nat → Nat) (pending : List Nat)
    (tx2 : Nat → Nat) (evs : List Event)
    (h : run_cycle tx_msg scratch pending = some (tx2, evs)) : tx2 0 = 0 := by
  obtain ⟨m, _, ⟨_, htx, _⟩ | ⟨h0, htx, _⟩⟩ := run_cycle_inv tx_msg scratch pending tx2 evs h
  · rw [htx, Function.update_same]
  · rw [htx]
    exact h0

theorem run_cycle_seq (tx_msg scratch : Nat → Nat) (pending : List Nat)
    (tx2 : Nat → Nat) (evs : List Event)
    (h256 : tx_msg BLINK_FRAME_SN_IDX < 256)
    (h : run_cycle tx_msg scratch pending = some (tx2, evs)) :
    tx2 BLINK_FRAME_SN_IDX =
      (tx_msg BLINK_FRAME_SN_IDX + countStartTx evs) % 256 ∧
    tx2 BLINK_FRAME_SN_IDX < 256 := by
  obtain ⟨m, hm, ⟨h0, htx, hevs⟩ | ⟨h0, htx, hevs⟩⟩ :=
    run_cycle_inv tx_msg scratch pending tx2 evs h
  · have hseq := update_tx_msg_seq_eq tx_msg scratch pending m hm
    have hcount : countStartTx evs = 1 := by rw [hevs]; rfl
    rw [htx, hcount, Function.update_noteq (by decide), Function.update_same, hseq]
    exact ⟨rfl, Nat.mod_lt _ (by decide)⟩
  · have hseq := update_tx_msg_seq_eq tx_msg scratch pending m hm
    have hcount : countStartTx evs = 0 := by rw [hevs]; rfl
    rw [htx, hcount, hseq, Nat.add_zero, Nat.mod_eq_of_lt h256]
    exact ⟨rfl, h256⟩

theorem countStartTx_append (a b : List Event) :
    countStartTx (a ++ b) = countStartTx a + countStartTx b := by
  unfold countStartTx
  rw [List.filter_append, List.length_append]

theorem run_cycles_inv (scratch : Nat → Nat) (pending : List Nat)
    (env : List ((Nat → Nat) × List Nat)) (tx_msg tx3 : Nat → Nat) (evs : List Event)
    (h : run_cycles tx_msg ((scratch, pending) :: env) = some (tx3, evs)) :
    ∃ tx2 evs1 evs2, run_cycle tx_msg scratch pending = some (tx2, evs1) ∧
      run_cycles tx2 env = some (tx3, evs2) ∧ evs = evs1 ++ evs2 := by
  obtain ⟨⟨tx2, evs1⟩, hrc⟩ := run_cycle_total tx_msg scratch pending
  simp only [run_cycles, hrc] at h
  cases hrcs : run_cycles tx2 env with
  | none =>
    rw [hrcs] at h
    simp at h
  | some r =>
    obtain ⟨tx4, evs2⟩ := r
    rw [hrcs] at h
    simp only [Option.some.injEq, Prod.mk.injEq] at h
    exact ⟨tx2, evs1, evs2, hrc, h.1 ▸ hrcs, h.2.symm⟩

theorem run_cycles_seq (env : List ((Nat → Nat) × List Nat)) :
    ∀ (tx_msg tx2 : Nat → Nat) (evs : List Event),
      tx_msg BLINK_FRAME_SN_IDX < 256 →
      run_cycles tx_msg env = some (tx2, evs) →
      tx2 BLINK_FRAME_SN_IDX =
        (tx_msg BLINK_FRAME_SN_IDX + countStartTx evs) % 256 ∧
      tx2 BLINK_FRAME_SN_IDX < 256 := by
  induction env with
  | nil =>
    intro tx_msg tx2 evs h256 h
    unfold run_cycles at h
    rw [Option.some.injEq, Prod.mk.injEq] at h
    rw [← h.1, ← h.2]
    exact ⟨(Nat.mod_eq_of_lt h256).symm, h256⟩
  | cons p env ih =>
    intro tx_msg tx3 evs h256 h
    obtain ⟨scratch, pending⟩ := p
    obtain ⟨tx2, evs1, evs2, hrc, hrcs, hevs⟩ :=
      run_cycles_inv scratch pending env tx_msg tx3 evs h
    obtain ⟨hs1, hl1⟩ := run_cycle_seq tx_msg scratch pending tx2 evs1 h256 hrc
    obtain ⟨hs2, hl2⟩ := ih tx2 tx3 evs2 hl1 hrcs
    subst hevs
    rw [countStartTx_append]
    refine ⟨?_, hl2⟩
    rw [hs2, hs1]
    omega

theorem run_cycles_tag (env : List ((Nat → Nat) × List Nat)) :
    ∀ (tx_msg tx2 : Nat → Nat) (evs : List Event),
      tx_msg 0 = 0 →
      run_cycles tx_msg env = some (tx2, evs) → tx2 0 = 0 := by
  induction env with
  | nil =>
    intro tx_msg tx2 evs h0 h
    unfold run_cycles at h
    rw [Option.some.injEq, Prod.mk.injEq] at h
    rw [← h.1]
    exact h0
  | cons p env ih =>
    intro tx_msg tx3 evs h0 h
    obtain ⟨scratch, pending⟩ := p
    obtain ⟨tx2, evs1, evs2, hrc, hrcs, _⟩ :=
      run_cycles_inv scratch pending env tx_msg tx3 evs h
    exact ih tx2 tx3 evs2 (run_cycle_tag_zero tx_msg scratch pending tx2 evs1 hrc) hrcs

theorem run_cycle_skip (tx_msg scratch m : Nat → Nat) (pending : List Nat)
    (hm : update_tx_msg tx_msg scratch pending = some m) (hidle : m 0 = 0) :
    run_cycle tx_msg scratch pending = some (m, []) := by
  have hrc : run_cycle tx_msg scratch pending =
      if m 0 ≠ 0 then
        some (Function.update
          (Function.update m BLINK_FRAME_SN_IDX ((m BLINK_FRAME_SN_IDX + 1) % 256)) 0 0,
          transmitTrace m)
      else some (m, []) := by
    unfold run_cycle
    rw [hm]
  rw [hrc, if_neg (by simp [hidle])]

theorem firstTxFrame_append (a b : List Event) :
    firstTxFrame (a ++ b) =
      match firstTxFrame a with
      | some f => some f
      | none => firstTxFrame b := by
  induction a with
  | nil => rfl
  | cons e a ih => cases e <;> simp [firstTxFrame, ih]

theorem run_cycles_firstFrame (env : List ((Nat → Nat) × List Nat)) :
    ∀ (tx_msg tx3 : Nat → Nat) (evs : List Event) (f : Nat → Nat),
      run_cycles tx_msg env = some (tx3, evs) → firstTxFrame evs = some f →
      f BLINK_FRAME_SN_IDX = tx_msg BLINK_FRAME_SN_IDX := by
  induction env with
  | nil =>
    intro tx_msg tx3 evs f h hf
    simp only [run_cycles, Option.some.injEq, Prod.mk.injEq] at h
    rw [← h.2] at hf
    simp [firstTxFrame] at hf
  | cons p env ih =>
    obtain ⟨scratch, pending⟩ := p
    intro tx_msg tx3 evs f h hf
    obtain ⟨tx2, evs1, evs2, hrc, hrcs, hevs⟩ :=
      run_cycles_inv scratch pending env tx_msg tx3 evs h
    obtain ⟨m, hm, ⟨h0, htx, hevs1⟩ | ⟨h0, htx, hevs1⟩⟩ :=
      run_cycle_inv tx_msg scratch pending tx2 evs1 hrc
    · subst hevs hevs1
      rw [firstTxFrame_append] at hf
      rw [show firstTxFrame (transmitTrace m) = some m from rfl] at hf
      cases hf
      exact update_tx_msg_seq_eq tx_msg scratch pending f hm
    · subst hevs hevs1
      rw [List.nil_append] at hf
      have hseq : tx2 BLINK_FRAME_SN_IDX = tx_msg BLINK_FRAME_SN_IDX := by
        rw [htx]
        exact update_tx_msg_seq_eq tx_msg scratch pending m hm
      rw [← hseq]
      exact ih tx2 tx3 evs2 f hrcs hf

/-- C4: across any run of the loop, the sequence-number byte at the loop top
equals `(initial + N) mod 256` where `N` is the number of `dwt_starttx` calls
(transmitted frames) so far; the increment wraps 255 to 0 with no error
signaled. -/
theorem seq_number_after_cycles (tx_msg tx2 : Nat → Nat)
    (env : List ((Nat → Nat) × List Nat)) (evs : List Event)
    (h256 : tx_msg BLINK_FRAME_SN_IDX < 256)
    (h : run_cycles tx_msg env = some (tx2, evs)) :
    tx2 BLINK_FRAME_SN_IDX =
      (tx_msg BLINK_FRAME_SN_IDX + countStartTx evs) % 256 :=
  (run_cycles_seq env tx_msg tx2 evs h256 h).1

/-- Frame whose sequence-number byte is 255: Scenario C's start state. -/
def seq255Frame : Nat → Nat := Function.update zeroBuf 1 255

/-- Environment of a single loop iteration with one pending input byte. -/
def oneInputEnv : List ((Nat → Nat) × List Nat) := [(zeroBuf, [65])]

/-- Loop-top frame after one transmitting cycle from `seq255Frame`. -/
def seqWitnessFrame : Nat → Nat :=
  ((run_cycles seq255Frame oneInputEnv).getD (zeroBuf, [])).1

/-- Trace of that single transmitting cycle. -/
def seqWitnessTrace : List Event :=
  ((run_cycles seq255Frame oneInputEnv).getD (zeroBuf, [])).2

theorem seq_number_after_cycles_witness :
    seq255Frame BLINK_FRAME_SN_IDX < 256 ∧
    seqWitnessFrame BLINK_FRAME_SN_IDX =
      (seq255Frame BLINK_FRAME_SN_IDX + countStartTx seqWitnessTrace) % 256 :=
  ⟨by decide, seq_number_after_cycles seq255Frame seqWitnessFrame oneInputEnv
    seqWitnessTrace (by decide) rfl⟩

/-- C5: in a loop iteration starting from a state whose type-tag byte is 0 or
`0xc5` (the reachable loop-top states, see the tag invariant), the transmit
primitive (`dwt_writetxdata`/`dwt_starttx`) is invoked in that iteration iff
the type-tag byte equals the ready sentinel `0xc5` at the check made just
after `update_tx_msg` returns. -/
theorem transmit_gating (tx_msg scratch m tx2 : Nat → Nat) (pending : List Nat)
    (evs : List Event)
    (hinv : tx_msg 0 = 0 ∨ tx_msg 0 = 0xc5)
    (hm : update_tx_msg tx_msg scratch pending = some m)
    (h : run_cycle tx_msg scratch pending = some (tx2, evs)) :
    (evs.any isTransmitCall) = true ↔ m 0 = 0xc5 := by
  obtain ⟨m2, hm2, hcase⟩ := run_cycle_inv tx_msg scratch pending tx2 evs h
  rw [hm] at hm2
  rw [Option.some.injEq] at hm2
  subst hm2
  have htag := update_tx_msg_tag_cases tx_msg scratch pending m hm
  obtain ⟨h0, _, hevs⟩ | ⟨h0, _, hevs⟩ := hcase
  · subst hevs
    constructor
    · intro _
      rcases htag with h2 | h2
      · rcases hinv with h3 | h3
        · exact absurd (h2.trans h3) h0
        · exact h2.trans h3
      · exact h2
    · intro _
      rfl
  · subst hevs
    constructor
    · intro hfalse
      cases hfalse
    · intro he
      rw [h0] at he
      cases he

/-- Post-ingest frame of the concrete transmitting iteration used as witness:
start state all zeroes, one pending input byte 65. -/
def gateFrame : Nat → Nat := (update_tx_msg zeroBuf zeroBuf [65]).getD zeroBuf

/-- Result (next loop-top frame, trace) of that concrete iteration. -/
def gateResult : (Nat → Nat) × List Event :=
  (run_cycle zeroBuf zeroBuf [65]).getD (zeroBuf, [])

theorem transmit_gating_witness :
    (zeroBuf 0 = 0 ∨ zeroBuf 0 = 0xc5) ∧
    ((gateResult.2.any isTransmitCall) = true ↔ gateFrame 0 = 0xc5) :=
  ⟨Or.inl rfl, transmit_gating zeroBuf zeroBuf gateFrame gateResult.1 [65]
    gateResult.2 (Or.inl rfl) rfl rfl⟩

/-- C6: a loop iteration that transmits (ready tag after `update_tx_msg`)
leaves the type-tag byte equal to 0 (the "not ready" sentinel) at the next
loop top — i.e. before the next `update_tx_msg` call — and its trace is
exactly, in order: hexdump log, `dwt_writetxdata`, `dwt_writetxfctrl`,
`dwt_starttx` (the transmit), the TX-done poll and event clear, the fixed
`TX_DELAY_MS` sleep, the sequence-number increment, and the type-tag reset. -/
theorem transmit_cycle_order (tx_msg scratch m tx2 : Nat → Nat) (pending : List Nat)
    (evs : List Event)
    (hm : update_tx_msg tx_msg scratch pending = some m)
    (hready : m 0 ≠ 0)
    (h : run_cycle tx_msg scratch pending = some (tx2, evs)) :
    tx2 0 = 0 ∧ evs = transmitTrace m := by
  obtain ⟨m2, hm2, hcase⟩ := run_cycle_inv tx_msg scratch pending tx2 evs h
  rw [hm, Option.some.injEq] at hm2
  subst hm2
  obtain ⟨_, htx, hevs⟩ | ⟨h0, _, _⟩ := hcase
  · subst htx
    exact ⟨Function.update_same 0 0 _, hevs⟩
  · exact absurd h0 hready

theorem transmit_cycle_order_witness :
    (update_tx_msg zeroBuf zeroBuf [65] = some gateFrame ∧ gateFrame 0 ≠ 0) ∧
    (gateResult.1 0 = 0 ∧ gateResult.2 = transmitTrace gateFrame) :=
  ⟨⟨rfl, by decide⟩, transmit_cycle_order zeroBuf zeroBuf gateFrame gateResult.1
    [65] gateResult.2 rfl (by decide) rfl⟩

/-- C7: an iteration whose type-tag byte is 0 ("not ready") after
`update_tx_msg` skips transmission entirely: its trace is empty (no transmit
call, no sleep) and the frame is exactly the ingest result, whose
sequence-number byte equals the previous one; consequently two consecutive
iterations with no pending input change nothing and transmit zero times. -/
theorem idle_cycle_skips (tx_msg scratch scratch2 m : Nat → Nat) (pending : List Nat)
    (hm : update_tx_msg tx_msg scratch pending = some m)
    (hidle : m 0 = 0) :
    run_cycle tx_msg scratch pending = some (m, []) ∧
    m BLINK_FRAME_SN_IDX = tx_msg BLINK_FRAME_SN_IDX ∧
    (tx_msg 0 = 0 →
      run_cycles tx_msg [(scratch2, []), (scratch2, [])] = some (tx_msg, []) ∧
      countStartTx ([] : List Event) = 0) := by
  refine ⟨run_cycle_skip tx_msg scratch m pending hm hidle,
    update_tx_msg_seq_eq tx_msg scratch pending m hm, ?_⟩
  intro htag
  have h1 : run_cycle tx_msg scratch2 [] = some (tx_msg, []) :=
    run_cycle_skip tx_msg scratch2 tx_msg [] (update_tx_msg_empty tx_msg scratch2) htag
  refine ⟨?_, rfl⟩
  simp only [run_cycles, h1, List.nil_append]

theorem idle_cycle_skips_witness :
    (update_tx_msg zeroBuf zeroBuf [] = some zeroBuf ∧ zeroBuf 0 = 0) ∧
    (run_cycle zeroBuf zeroBuf [] = some (zeroBuf, []) ∧
     zeroBuf BLINK_FRAME_SN_IDX = zeroBuf BLINK_FRAME_SN_IDX ∧
     (zeroBuf 0 = 0 →
       run_cycles zeroBuf [(zeroBuf, []), (zeroBuf, [])] = some (zeroBuf, []) ∧
       countStartTx ([] : List Event) = 0)) :=
  ⟨⟨rfl, rfl⟩, idle_cycle_skips zeroBuf zeroBuf zeroBuf zeroBuf [] rfl rfl⟩

/-- C9: the type-tag byte starts at 0 (static zero-initialization), every
reachable loop-top state has it equal to 0 or to the ready sentinel `0xc5`,
and from any such state the tag after `update_tx_msg` is again 0 or `0xc5`,
so the code's gate `tx_msg[0] != 0` is equivalent to `tx_msg[0] == 0xc5`
there. -/
theorem tag_invariant :
    init_tx_msg 0 = 0 ∧
    (∀ (env : List ((Nat → Nat) × List Nat)) (tx2 : Nat → Nat) (evs : List Event),
      run_cycles init_tx_msg env = some (tx2, evs) → tx2 0 = 0 ∨ tx2 0 = 0xc5) ∧
    (∀ (tx_msg scratch m : Nat → Nat) (pending : List Nat),
      (tx_msg 0 = 0 ∨ tx_msg 0 = 0xc5) →
      update_tx_msg tx_msg scratch pending = some m →
      (m 0 = 0 ∨ m 0 = 0xc5) ∧ (m 0 ≠ 0 ↔ m 0 = 0xc5)) := by
  refine ⟨rfl, ?_, ?_⟩
  · intro env tx2 evs h
    exact Or.inl (run_cycles_tag env init_tx_msg tx2 evs rfl h)
  · intro tx_msg scratch m pending hinv hm
    have htag := update_tx_msg_tag_cases tx_msg scratch pending m hm
    have hm0 : m 0 = 0 ∨ m 0 = 0xc5 := by
      rcases htag with h2 | h2
      · rw [h2]
        exact hinv
      · exact Or.inr h2
    refine ⟨hm0, ?_, ?_⟩
    · intro hne
      rcases hm0 with h2 | h2
      · exact absurd h2 hne
      · exact h2
    · intro he
      rw [he]
      decide

theorem tag_invariant_witness :
    init_tx_msg 0 = 0 ∨ init_tx_msg 0 = 0xc5 :=
  tag_invariant.2.1 [] init_tx_msg [] rfl

/-- C10: `update_tx_msg` never writes the sequence-number byte (its copy loop
starts at index 2), and consequently the first frame handed to
`dwt_writetxdata` after bring-up carries sequence number 0 (the value stored
at startup). -/
theorem seq_byte_preserved :
    (∀ (tx_msg scratch m : Nat → Nat) (pending : List Nat),
      update_tx_msg tx_msg scratch pending = some m →
      m BLINK_FRAME_SN_IDX = tx_msg BLINK_FRAME_SN_IDX) ∧
    (∀ (env : List ((Nat → Nat) × List Nat)) (tx2 f : Nat → Nat) (evs : List Event),
      run_cycles init_tx_msg env = some (tx2, evs) →
      firstTxFrame evs = some f → f BLINK_FRAME_SN_IDX = 0) := by
  refine ⟨?_, ?_⟩
  · intro tx_msg scratch m pending hm
    exact update_tx_msg_seq_eq tx_msg scratch pending m hm
  · intro env tx2 f evs h hf
    exact run_cycles_firstFrame env init_tx_msg tx2 evs f h hf

theorem seq_byte_preserved_witness :
    gateFrame BLINK_FRAME_SN_IDX = zeroBuf BLINK_FRAME_SN_IDX :=
  seq_byte_preserved.1 zeroBuf zeroBuf gateFrame [65] rfl

/-- C8: when `dwt_configure` reports rejection (nonzero return) during
bring-up, `app_main` emits the "CONFIG FAILED" error indication and halts in
the config-failure spin loop before ever entering the transmit loop, with no
call to the transmit primitive in its whole trace; likewise when
`dwt_initialise` reports `DWT_ERROR` the process halts at the init-failure
spin loop with no transmit call. -/
theorem config_failure_halts (initResult configResult : Int)
    (env : List ((Nat → Nat) × List Nat))
    (hinit : initResult ≠ DWT_ERROR) (hcfg : configResult ≠ 0) :
    (app_main initResult configResult env).1 = Boot.haltedConfig ∧
    Event.logErr "CONFIG FAILED" ∈ (app_main initResult configResult env).2.1 ∧
    ((app_main initResult configResult env).2.1.any isTransmitCall) = false ∧
    (app_main DWT_ERROR configResult env).1 = Boot.haltedInit ∧
    Event.logErr "INIT FAILED" ∈ (app_main DWT_ERROR configResult env).2.1 ∧
    ((app_main DWT_ERROR configResult env).2.1.any isTransmitCall) = false := by
  have happ : app_main initResult configResult env =
      (Boot.haltedConfig,
       bring_up_events ++ [Event.setLeds, Event.logErr "CONFIG FAILED"], none) := by
    unfold app_main
    rw [if_neg hinit, if_pos hcfg]
  have happ2 : app_main DWT_ERROR configResult env =
      (Boot.haltedInit, bring_up_events ++ [Event.logErr "INIT FAILED"], none) := by
    unfold app_main
    rw [if_pos rfl]
  rw [happ, happ2]
  refine ⟨rfl, ?_, rfl, rfl, ?_, rfl⟩
  · simp [bring_up_events]
  · simp [bring_up_events]

theorem config_failure_halts_witness :
    ((0 : Int) ≠ DWT_ERROR ∧ (5 : Int) ≠ 0) ∧
    ((app_main 0 5 []).1 = Boot.haltedConfig ∧
     Event.logErr "CONFIG FAILED" ∈ (app_main 0 5 []).2.1 ∧
     ((app_main 0 5 []).2.1.any isTransmitCall) = false ∧
     (app_main DWT_ERROR 5 []).1 = Boot.haltedInit ∧
     Event.logErr "INIT FAILED" ∈ (app_main DWT_ERROR 5 []).2.1 ∧
     ((app_main DWT_ERROR 5 []).2.1.any isTransmitCall) = false) :=
  ⟨⟨by decide, by decide⟩, config_failure_halts 0 5 [] (by decide) (by decide)⟩
